import Mathlib

/-!
Shallow embedding of the odds-extraction core of OddsHarvester
(`src/core/market_extraction/odds_parser.py`), and proofs about it.

The markup tree is the one BeautifulSoup builds with `html.parser`; the
BeautifulSoup / `re` / `datetime` library operations the source uses are
modelled from their documented semantics, each at the concrete pattern or
format string the source passes.  Elements are modelled as always truthy
(BeautifulSoup 4.13+: a `Tag` is truthy even when it has no contents).
-/

namespace OddsHarvester

/-- A node of the parsed markup tree: an element with tag name, attribute list
(`html.parser` keeps the first occurrence of a duplicated attribute) and
children, or a text node. -/
inductive Node where
  | elem (tag : String) (attrs : List (String × String)) (children : List Node)
  | text (s : String)

mutual
/-- All descendants of a node in document (pre)order, excluding the node
itself; `find_all` and `find` search this list. -/
def Node.descendants : Node → List Node
  | .text _ => []
  | .elem _ _ cs => descendantsList cs
termination_by structural n => n

def descendantsList : List Node → List Node
  | [] => []
  | c :: cs => c :: c.descendants ++ descendantsList cs
termination_by structural l => l
end

/-- Attribute lookup, `tag.attrs[k]` / `tag.get(k)`. -/
def Node.getAttr : Node → String → Option String
  | .text _, _ => none
  | .elem _ attrs _, k => (attrs.find? (fun p => p.1 == k)).map (·.2)

def Node.tagName : Node → Option String
  | .text _ => none
  | .elem t _ _ => some t

/-- Accumulator-based whitespace tokenizer (`acc` holds the current word,
reversed). -/
def wsTokensAux : List Char → List Char → List String
  | acc, [] => if acc.isEmpty then [] else [String.mk acc.reverse]
  | acc, c :: cs =>
    if Char.isWhitespace c then
      if acc.isEmpty then wsTokensAux [] cs
      else String.mk acc.reverse :: wsTokensAux [] cs
    else wsTokensAux (c :: acc) cs

/-- The whitespace-separated tokens of a `class` attribute value — the
multi-valued list BeautifulSoup stores for `class`. -/
def classTokens (s : String) : List String :=
  wsTokensAux [] s.data

/-- The class list joined back with single spaces (`' '.join(classes)`): the
string BeautifulSoup falls back to when no single class token matches a
`class_` filter.  For every concrete pattern the source uses, matching this
joined string is equivalent to BeautifulSoup's token-then-joined test. -/
def joinedClasses (s : String) : String :=
  String.intercalate " " (classTokens s)

/-- Does `pat` occur contiguously anywhere in the list?  Models `re.search` of
a literal pattern. -/
def listInfix (pat : List Char) : List Char → Bool
  | [] => pat.isPrefixOf []
  | c :: cs => pat.isPrefixOf (c :: cs) || listInfix pat cs

/-- `re.search(pat, s)` for a literal pattern `pat`. -/
def strContains (s pat : String) : Bool := listInfix pat.data s.data

/-- `re.search("^" + pat, s)` for a literal pattern: anchored search, i.e. a
prefix test. -/
def strHasPrefix (pat s : String) : Bool := pat.data.isPrefixOf s.data

/-- `re.compile(r"border-black-borders")`, the primary block pattern of
`parse_market_odds`. -/
def primaryBlockPat (cls : String) : Bool := strContains cls "border-black-borders"

/-- `re.compile(r"^border-black-borders flex h-9")`, the pattern
`parse_market_odds` retries with when the primary finds no block. -/
def fallbackBlockPat (cls : String) : Bool := strHasPrefix "border-black-borders flex h-9" cls

/-- `re.compile(r"height-content")`. -/
def heightContentPat (cls : String) : Bool := strContains cls "height-content"

/-- The suffix of the list that follows the first occurrence of `pat`, if any
occurrence exists. -/
def afterFirst (pat : List Char) : List Char → Option (List Char)
  | [] => if pat.isPrefixOf [] then some [] else none
  | c :: cs =>
    if pat.isPrefixOf (c :: cs) then some ((c :: cs).drop pat.length)
    else afterFirst pat cs

/-- `re.compile(r"flex-center.*flex-col.*font-bold")`: the three literals occur
in order (`.` modelled as matching any character). -/
def oddsFieldPat (cls : String) : Bool :=
  match afterFirst "flex-center".data cls.data with
  | none => false
  | some r1 =>
    match afterFirst "flex-col".data r1 with
    | none => false
    | some r2 => listInfix "font-bold".data r2

/-- Does the element's `class` attribute match the given pattern?  An element
without a `class` attribute never matches a `class_` filter. -/
def classMatches (pat : String → Bool) (n : Node) : Bool :=
  match n.getAttr "class" with
  | none => false
  | some cls => pat (joinedClasses cls)

/-- `root.find_all(tag, class_=re.compile(...))`: matching descendants in
document order. -/
def findAllTagClass (root : Node) (tag : String) (pat : String → Bool) : List Node :=
  root.descendants.filter (fun n => n.tagName == some tag && classMatches pat n)

/-- Exact (string-valued) `class_` filter: the string must equal one of the
element's class tokens. -/
def hasClassToken (n : Node) (c : String) : Bool :=
  match n.getAttr "class" with
  | none => false
  | some cls => (classTokens cls).contains c

mutual
/-- The strings of all descendant text nodes, in document order. -/
def Node.texts : Node → List String
  | .text s => [s]
  | .elem _ _ cs => textsList cs
termination_by structural n => n

def textsList : List Node → List String
  | [] => []
  | c :: cs => c.texts ++ textsList cs
termination_by structural l => l
end

/-- Python `str.strip()` on a character list. -/
def trimChars (cs : List Char) : List Char :=
  ((cs.dropWhile Char.isWhitespace).reverse.dropWhile Char.isWhitespace).reverse

/-- Python `str.strip()`. -/
def pyStrip (s : String) : String := String.mk (trimChars s.data)

/-- Python `str.lower()`. -/
def pyLower (s : String) : String := String.mk (s.data.map Char.toLower)

/-- `get_text(strip=True)`: every text fragment stripped, emptied fragments
dropped, the rest joined with no separator. -/
def getTextStrip (n : Node) : String :=
  String.join ((n.texts.map pyStrip).filter (fun t => t ≠ ""))

/-! ### `_extract_bookmaker_name` -/

/-- One entry of the `bookmaker_patterns` table: a literal regex, or the
two-literal `a\s*b` form used by `william\s*hill` and `paddy\s*power`. -/
inductive BPat where
  | lit (s : String)
  | wsPair (a b : String)

/-- The curated `bookmaker_patterns` table, in source order. -/
def bookmaker_patterns : List BPat :=
  [.lit "bet365", .lit "betmgm", .lit "fanduel", .lit "draftkings", .lit "caesars",
   .lit "pointsbet", .lit "betrivers", .lit "unibet", .wsPair "william" "hill", .lit "ladbrokes",
   .lit "betfair", .lit "pinnacle", .lit "bovada", .lit "betonline", .lit "mybookie",
   .lit "betway", .lit "888", .lit "bwin", .lit "betfred", .wsPair "paddy" "power",
   .lit "sportsbet", .lit "tab", .lit "neds", .lit "betsson", .lit "10bet",
   .lit "1xbet", .lit "melbet", .lit "22bet", .lit "stake", .lit "cloudbet"]

/-- `re.search(a + r"\s*" + b, s)` where `b` starts with a non-whitespace
character: `a`, then the whitespace run, then `b`. -/
def searchWsPair (a b : List Char) : List Char → Bool
  | [] => a.isPrefixOf [] && b.isPrefixOf []
  | c :: cs =>
    (a.isPrefixOf (c :: cs) &&
      b.isPrefixOf (((c :: cs).drop a.length).dropWhile Char.isWhitespace))
    || searchWsPair a b cs

def bpatSearch (nameLower : String) : BPat → Bool
  | .lit s => strContains nameLower s
  | .wsPair a b => searchWsPair a.data b.data nameLower.data

/-- The generic suffix/keyword tokens of the heuristic. -/
def bookmaker_suffixes : List String := [".com", ".us", ".uk", ".eu", "bet", "book", "wager"]

/-- `looks_like_bookmaker`: empty never matches; otherwise the lowercased name
must match a curated pattern or contain a generic token. -/
def looks_like_bookmaker (name : String) : Bool :=
  if name = "" then false
  else
    let n := pyLower name
    bookmaker_patterns.any (bpatSearch n) || bookmaker_suffixes.any (fun suf => strContains n suf)

/-- Method 1: the first `img.bookmaker-logo` descendant, if it carries a
`title` attribute. -/
def bookmakerNameMethod1 (block : Node) : Option String :=
  match block.descendants.find?
      (fun n => n.tagName == some "img" && hasClassToken n "bookmaker-logo") with
  | some img => img.getAttr "title"
  | none => none

/-- Method 2: the first `img` descendant with an `alt` attribute whose
non-empty text satisfies the heuristic. -/
def bookmakerNameMethod2 (block : Node) : Option String :=
  (block.descendants.filter
      (fun n => n.tagName == some "img" && (n.getAttr "alt").isSome)).findSome?
    (fun img =>
      let altText := (img.getAttr "alt").getD ""
      if altText != "" && looks_like_bookmaker altText then some altText else none)

/-- Method 3: the first anchor inside a `p.height-content` whose non-empty
text satisfies the heuristic. -/
def bookmakerNameMethod3 (block : Node) : Option String :=
  (findAllTagClass block "p" heightContentPat).findSome?
    (fun p =>
      match p.descendants.find? (fun n => n.tagName == some "a") with
      | some a =>
        let name := getTextStrip a
        if name != "" && looks_like_bookmaker name then some name else none
      | none => none)

/-- `OddsParser._extract_bookmaker_name`: the ordered strategy chain, ending in
the `"Unknown"` sentinel. -/
def _extract_bookmaker_name (block : Node) : String :=
  match bookmakerNameMethod1 block with
  | some t => t
  | none =>
    match bookmakerNameMethod2 block with
    | some t => t
    | none =>
      match bookmakerNameMethod3 block with
      | some t => t
      | none => "Unknown"

/-! ### `re.sub(r"(\d+\.\d+)\1", r"\1", value)` — the odds-text normalization -/

/-- The backreference stage of matching `(\d+\.\d+)\1` at one position: with
the first digit run and the full digit run after the dot fixed, the engine
tries the longest second-group run first and shrinks it until the
backreference matches.  Returns the group and the input left after the whole
match. -/
def tryBackref (r1 run rest2 : List Char) : Nat → Option (List Char × List Char)
  | 0 => none
  | n + 1 =>
    let g := r1 ++ '.' :: run.take (n + 1)
    let after := run.drop (n + 1) ++ rest2
    if g.isPrefixOf after then some (g, after.drop g.length)
    else tryBackref r1 run rest2 n

/-- Does `(\d+\.\d+)\1` match at the head of the input?  The first `\d+` can
only be the maximal digit run (shrinking it puts a digit where the literal dot
must be), so only the second run backtracks. -/
def matchHere (cs : List Char) : Option (List Char × List Char) :=
  match cs.takeWhile Char.isDigit, cs.dropWhile Char.isDigit with
  | [], _ => none
  | r1 :: r1s, '.' :: cs2 =>
    tryBackref (r1 :: r1s) (cs2.takeWhile Char.isDigit) (cs2.dropWhile Char.isDigit)
      (cs2.takeWhile Char.isDigit).length
  | _ :: _, _ => none

/-- `re.sub(r"(\d+\.\d+)\1", r"\1", ·)` on a character list: scan left to
right; at each (leftmost, non-overlapping) match emit one copy of the group
and resume after the match, otherwise keep the character and move on.  The
fuel only bounds the recursion: every step consumes at least one character
(a match consumes at least six), so `cs.length` steps always suffice and the
zero-fuel branch is unreachable from `reSubDD`. -/
def reSubAux : Nat → List Char → List Char
  | _, [] => []
  | 0, c :: cs => c :: cs
  | fuel + 1, c :: cs =>
    match matchHere (c :: cs) with
    | some (g, rest) => g ++ reSubAux fuel rest
    | none => c :: reSubAux fuel cs

def reSubDD (cs : List Char) : List Char := reSubAux cs.length cs

/-- Does `(\d+\.\d+)\1` match anywhere (would `re.sub` change the value)? -/
def hasSelfRepeat : List Char → Bool
  | [] => false
  | c :: cs => (matchHere (c :: cs)).isSome || hasSelfRepeat cs

/-- The per-value normalization of `parse_market_odds`. -/
def normalizeOddsValue (s : String) : String := String.mk (reSubDD s.data)

/-! ### Python `dict` -/

/-- Python `dict` assignment on an insertion-ordered association list (keys
unique, as for every dict built here): overwrite in place, or append the new
key at the end. -/
def dictInsert : List (String × String) → String → String → List (String × String)
  | [], k, v => [(k, v)]
  | p :: rest, k, v => if p.1 == k then (k, v) :: rest else p :: dictInsert rest k v

/-- Python `dict` lookup. -/
def dictGet : List (String × String) → String → Option String
  | [], _ => none
  | p :: rest, k => if p.1 == k then some p.2 else dictGet rest k

/-! ### `parse_market_odds` -/

/-- `re.search(r"[\d.+-]", s)`: some character is a digit, `.`, `+` or `-`. -/
def hasOddsChar (s : String) : Bool :=
  s.data.any (fun c => c.isDigit || c == '.' || c == '+' || c == '-')

/-- The two-stage odds-field discovery inside one block: the primary field
selector and, when it yields fewer elements than there are labels, the
live-page fallback filtered to odds-looking text. -/
def discoverOddsBlocks (odds_labels : List String) (block : Node) : List Node :=
  let odds_blocks := findAllTagClass block "div" oddsFieldPat
  if odds_blocks.length < odds_labels.length then
    (findAllTagClass block "p" heightContentPat).filter (fun b => hasOddsChar (getTextStrip b))
  else odds_blocks

/-- The `target_bookmaker` guard: Python's `if target_bookmaker and
bookmaker_name.lower() != target_bookmaker.lower()` — an absent or empty
(falsy) target never filters. -/
def targetSkip (target_bookmaker : Option String) (bookmaker_name : String) : Bool :=
  match target_bookmaker with
  | some t => t != "" && pyLower bookmaker_name != pyLower t
  | none => false

/-- The body of the per-block loop of `parse_market_odds`; `none` is a
`continue`.  (The `except` arm of the loop is unreachable: once the
field-count guard passes, no statement in the body can raise.) -/
def processBlock (period : String) (odds_labels : List String)
    (target_bookmaker : Option String) (block : Node) : Option (List (String × String)) :=
  let bookmaker_name := _extract_bookmaker_name block
  if bookmaker_name == "" || bookmaker_name == "Unknown" then none
  else if targetSkip target_bookmaker bookmaker_name then none
  else
    let odds_blocks := discoverOddsBlocks odds_labels block
    if odds_blocks.length < odds_labels.length then none
    else
      let extracted := odds_labels.enum.foldl
        (fun d il => dictInsert d il.2 (getTextStrip (odds_blocks.getD il.1 (Node.text ""))))
        []
      let extracted := extracted.map (fun kv => (kv.1, normalizeOddsValue kv.2))
      let extracted := dictInsert extracted "bookmaker_name" bookmaker_name
      let extracted := dictInsert extracted "period" period
      some extracted

/-- Block discovery of `parse_market_odds`: the primary class pattern and,
only when nothing matched, the second pattern. -/
def discoverBlocks (doc : Node) : List Node :=
  let blocks := findAllTagClass doc "div" primaryBlockPat
  if blocks.isEmpty then findAllTagClass doc "div" fallbackBlockPat else blocks

/-- `OddsParser.parse_market_odds`; `doc` is the tree BeautifulSoup builds
from `html_content`.  An empty block list makes the `filterMap` return `[]`,
which is also what the early-return branch of the source does. -/
def parse_market_odds (doc : Node) (period : String) (odds_labels : List String)
    (target_bookmaker : Option String) : List (List (String × String)) :=
  (discoverBlocks doc).filterMap (processBlock period odds_labels target_bookmaker)

/-- One invocation of `parse_market_odds` at ambient UTC clock year
`nowYear`: the market-odds path contains no `datetime` access, so the ambient
clock parameter is never consulted. -/
def invokeMarketOdds (nowYear : Nat) (doc : Node) (period : String)
    (odds_labels : List String) (target_bookmaker : Option String) :
    List (List (String × String)) :=
  let _ := nowYear
  parse_market_odds doc period odds_labels target_bookmaker

/-! ### `datetime.strptime(s, "%d %b, %H:%M")` and `float(s)` -/

/-- The field values `strptime` extracts from `"%d %b, %H:%M"`; the year
defaults to 1900 and only matters for validating the day. -/
structure ParsedDT where
  month : Nat
  day : Nat
  hour : Nat
  minute : Nat
deriving DecidableEq, Repr

def monthAbbrs : List String :=
  ["jan", "feb", "mar", "apr", "may", "jun", "jul", "aug", "sep", "oct", "nov", "dec"]

def natOfDigits (cs : List Char) : Nat :=
  cs.foldl (fun n c => 10 * n + (c.toNat - 48)) 0

/-- Days per month in the `strptime` default year 1900 (not a leap year). -/
def daysInMonth1900 (m : Nat) : Nat :=
  if m == 2 then 28
  else if m == 4 || m == 6 || m == 9 || m == 11 then 30
  else 31

/-- Case-insensitive `%b` month lookup on the next three characters (all
twelve C-locale abbreviations have three letters). -/
def matchMonth (cs : List Char) : Option (Nat × List Char) :=
  match cs with
  | a :: b :: c :: rest =>
    match monthAbbrs.findIdx? (fun w => w == String.mk [a.toLower, b.toLower, c.toLower]) with
    | some i => some (i + 1, rest)
    | none => none
  | _ => none

/-- A `%d`/`%H`/`%M` field: `strptime` compiles these to one-or-two-digit
regex alternations, and in this format every field is followed by a
non-digit, so only the maximal run of at most two digits can match. -/
def digitRun12 (cs : List Char) : Option (Nat × List Char) :=
  let run := cs.takeWhile Char.isDigit
  if run.length == 1 || run.length == 2 then
    some (natOfDigits run, cs.dropWhile Char.isDigit)
  else none

def expectChar (c : Char) : List Char → Option (List Char)
  | x :: rest => if x == c then some rest else none
  | [] => none

/-- `datetime.strptime(s, "%d %b, %H:%M")`; `none` is the `ValueError` path.
Whitespace in the format matches a nonempty whitespace run; the day is first
constrained to 1–31 by the `%d` regex and then checked against the month in
the default year 1900; the whole string must be consumed. -/
def strptime_d_b_HM (s : String) : Option ParsedDT := do
  let (day, cs1) ← digitRun12 s.data
  guard (1 ≤ day ∧ day ≤ 31)
  guard (cs1.takeWhile Char.isWhitespace ≠ [])
  let (month, cs2) ← matchMonth (cs1.dropWhile Char.isWhitespace)
  let cs3 ← expectChar ',' cs2
  guard (cs3.takeWhile Char.isWhitespace ≠ [])
  let (hour, cs4) ← digitRun12 (cs3.dropWhile Char.isWhitespace)
  guard (hour ≤ 23)
  let cs5 ← expectChar ':' cs4
  let (minute, cs6) ← digitRun12 cs5
  guard (minute ≤ 59)
  guard (cs6 = [])
  guard (day ≤ daysInMonth1900 month)
  pure ⟨month, day, hour, minute⟩

def pad2 (n : Nat) : String := if n < 10 then "0" ++ toString n else toString n

def pad4 (n : Nat) : String :=
  if n < 10 then "000" ++ toString n
  else if n < 100 then "00" ++ toString n
  else if n < 1000 then "0" ++ toString n
  else toString n

/-- `dt.replace(year=year).isoformat()` for a datetime with zero seconds and
microseconds. -/
def isoformatWithYear (year : Nat) (d : ParsedDT) : String :=
  pad4 year ++ "-" ++ pad2 d.month ++ "-" ++ pad2 d.day ++ "T" ++
    pad2 d.hour ++ ":" ++ pad2 d.minute ++ ":00"

/-- The exponent tail of a float literal, also enforcing end of input; `none`
on leftover input. -/
def floatExpTail : List Char → Option Int
  | [] => some 0
  | 'e' :: rest => floatExpDigits rest
  | 'E' :: rest => floatExpDigits rest
  | _ => none
where
  floatExpDigits (rest : List Char) : Option Int :=
    let (esign, rest') : Int × List Char :=
      match rest with
      | '+' :: r => (1, r)
      | '-' :: r => (-1, r)
      | _ => (1, rest)
    let ds := rest'.takeWhile Char.isDigit
    if ds ≠ [] ∧ rest'.dropWhile Char.isDigit = [] then
      some (esign * (natOfDigits ds : Int))
    else none

/-- `float(s)` on decimal literals: optional surrounding whitespace, optional
sign, digits with an optional fractional part (at least one digit in all),
optional exponent; the result is the exact rational value the literal
denotes, built with `mkRat`.  (`inf`, `nan` and underscore separators do not
occur in this domain and are not modelled.)  `none` is the `ValueError`
path. -/
def pyFloat? (s : String) : Option Rat :=
  let cs := trimChars s.data
  let (sign, cs1) : Int × List Char :=
    match cs with
    | '+' :: rest => (1, rest)
    | '-' :: rest => (-1, rest)
    | _ => (1, cs)
  let ipart := cs1.takeWhile Char.isDigit
  let cs2 := cs1.dropWhile Char.isDigit
  let (fpart, cs3) : List Char × List Char :=
    match cs2 with
    | '.' :: rest => (rest.takeWhile Char.isDigit, rest.dropWhile Char.isDigit)
    | _ => ([], cs2)
  if ipart = [] ∧ fpart = [] then none
  else
    match floatExpTail cs3 with
    | none => none
    | some e =>
      let mantNum : Int := sign * (natOfDigits (ipart ++ fpart) : Int)
      if 0 ≤ e then
        some (mkRat (mantNum * ((10 ^ e.toNat : Nat) : Int)) (10 ^ fpart.length))
      else
        some (mkRat mantNum (10 ^ fpart.length * 10 ^ (-e).toNat))

/-! ### The CSS selects of `parse_odds_history_modal` -/

/-- CSS context of one element: its ancestor chain, nearest first, each
ancestor paired with that ancestor's nearest preceding element sibling (text
siblings do not count, as in the CSS `+` combinator). -/
structure Ctx where
  node : Node
  ancestors : List (Node × Option Node)

mutual
/-- One node of the CSS walk: a text node contributes nothing; an element
contributes itself (with its ancestor chain) followed by its subtree. -/
def walkNode : Node → Option Node → List (Node × Option Node) → List Ctx
  | .text _, _, _ => []
  | .elem t a cs, prev, anc =>
    { node := Node.elem t a cs, ancestors := anc } ::
      walkChildren cs none ((Node.elem t a cs, prev) :: anc)
termination_by structural n prev anc => n

/-- Walk a child list: `prev` is the nearest preceding element sibling so far,
`anc` the ancestor chain of these children. -/
def walkChildren : List Node → Option Node → List (Node × Option Node) → List Ctx
  | [], _, _ => []
  | .text _ :: rest, prev, anc => walkChildren rest prev anc
  | .elem t a cs :: rest, prev, anc =>
    walkNode (.elem t a cs) prev anc ++ walkChildren rest (some (.elem t a cs)) anc
termination_by structural l prev anc => l
end

/-- Every element strictly below `root`, in document order, with its CSS
context.  `root` is the whole document for `soup.select`, or the scoping
element for `element.select` (in which case it heads every ancestor chain,
so it can serve as an ancestor of a descendant-combinator match). -/
def cssWalk (root : Node) : List Ctx :=
  match root with
  | .text _ => []
  | .elem t a cs => walkChildren cs none [(Node.elem t a cs, none)]

/-- `div` with (at least) the given class tokens — one compound selector. -/
def matchesDivTokens (toks : List String) (n : Node) : Bool :=
  n.tagName == some "div" && toks.all (hasClassToken n)

/-- `soup.select("div.flex.flex-col.gap-1 > div.flex.gap-3 > div.font-normal")`. -/
def selectHistoryTimestamps (doc : Node) : List Node :=
  (cssWalk doc).filterMap (fun c =>
    match c.ancestors with
    | (parent, _) :: (gparent, _) :: _ =>
      if matchesDivTokens ["font-normal"] c.node &&
          matchesDivTokens ["flex", "gap-3"] parent &&
          matchesDivTokens ["flex", "flex-col", "gap-1"] gparent
      then some c.node else none
    | _ => none)

/-- `soup.select("div.flex.flex-col.gap-1 + div.flex.flex-col.gap-1 > div.font-bold")`. -/
def selectHistoryValues (doc : Node) : List Node :=
  (cssWalk doc).filterMap (fun c =>
    match c.ancestors with
    | (parent, some prevSib) :: _ =>
      if matchesDivTokens ["font-bold"] c.node &&
          matchesDivTokens ["flex", "flex-col", "gap-1"] parent &&
          matchesDivTokens ["flex", "flex-col", "gap-1"] prevSib
      then some c.node else none
    | _ => none)

/-- `soup.select_one("div.mt-2.gap-1")`. -/
def selectOpeningBlock (doc : Node) : Option Node :=
  ((cssWalk doc).find? (fun c => matchesDivTokens ["mt-2", "gap-1"] c.node)).map (·.node)

/-- `opening_odds_block.select_one("div.flex.gap-1 div")`. -/
def selectOpeningTs (block : Node) : Option Node :=
  ((cssWalk block).find? (fun c =>
    c.node.tagName == some "div" &&
      c.ancestors.any (fun a => matchesDivTokens ["flex", "gap-1"] a.1))).map (·.node)

/-- `opening_odds_block.select_one("div.flex.gap-1 .font-bold")`. -/
def selectOpeningVal (block : Node) : Option Node :=
  ((cssWalk block).find? (fun c =>
    hasClassToken c.node "font-bold" &&
      c.ancestors.any (fun a => matchesDivTokens ["flex", "gap-1"] a.1))).map (·.node)

/-! ### `parse_odds_history_modal` -/

structure HistoryEntry where
  timestamp : String
  odds : Rat
deriving DecidableEq, Repr

/-- The Python exceptions that can arise inside the outer `try`. -/
inductive PyErr where
  | valueError
  | attributeError
deriving DecidableEq, Repr

/-- The dictionary `parse_odds_history_modal` returns: the normal
`{"odds_history": ..., "opening_odds": ...}`, or the bare `{}` of the outer
`except` branch. -/
inductive ModalResult where
  | ok (odds_history : List HistoryEntry) (opening_odds : Option HistoryEntry)
  | empty
deriving DecidableEq, Repr

instance {ε α : Type} [DecidableEq ε] [DecidableEq α] : DecidableEq (Except ε α) := fun x y =>
  match x, y with
  | .ok a, .ok b =>
    if h : a = b then .isTrue (congrArg Except.ok h)
    else .isFalse (fun hx => h (Except.ok.inj hx))
  | .error e, .error f =>
    if h : e = f then .isTrue (congrArg Except.error h)
    else .isFalse (fun hx => h (Except.error.inj hx))
  | .ok _, .error _ => .isFalse (fun hx => Except.noConfusion hx)
  | .error _, .ok _ => .isFalse (fun hx => Except.noConfusion hx)

/-- The `for ts, odd in zip(timestamps, odds_values, strict=False)` loop.  A
timestamp failing `strptime` only skips its pair (`except ValueError:
continue`); a value text failing `float` raises out of the loop — the inner
`try` covers only the timestamp parse. -/
def historyLoop (year : Nat) : List (Node × Node) → Except PyErr (List HistoryEntry)
  | [] => .ok []
  | (ts, odd) :: rest =>
    match strptime_d_b_HM (getTextStrip ts) with
    | none => historyLoop year rest
    | some dt =>
      match pyFloat? (getTextStrip odd) with
      | none => .error .valueError
      | some v =>
        match historyLoop year rest with
        | .ok es => .ok ({ timestamp := isoformatWithYear year dt, odds := v } :: es)
        | .error e => .error e

/-- The opening-odds section.  A missing region raises `AttributeError`
(`None.select_one`); with the region present, a missing sub-element or a
failed timestamp/value parse leaves `opening_odds` as `None`. -/
def openingSection (year : Nat) (doc : Node) : Except PyErr (Option HistoryEntry) :=
  match selectOpeningBlock doc with
  | none => .error .attributeError
  | some blk =>
    match selectOpeningTs blk, selectOpeningVal blk with
    | some tsDiv, some valDiv =>
      match strptime_d_b_HM (getTextStrip tsDiv) with
      | none => .ok none
      | some dt =>
        match pyFloat? (getTextStrip valDiv) with
        | none => .ok none
        | some v => .ok (some { timestamp := isoformatWithYear year dt, odds := v })
    | _, _ => .ok none

/-- The body of the outer `try` of `parse_odds_history_modal`. -/
def modalBody (year : Nat) (doc : Node) :
    Except PyErr (List HistoryEntry × Option HistoryEntry) :=
  match historyLoop year ((selectHistoryTimestamps doc).zip (selectHistoryValues doc)) with
  | .error e => .error e
  | .ok h =>
    match openingSection year doc with
    | .error e => .error e
    | .ok op => .ok (h, op)

/-- `OddsParser.parse_odds_history_modal`; `year` is `datetime.now(UTC).year`
at call time.  The outer `except Exception` turns any raised error into the
bare `{}`. -/
def parse_odds_history_modal (year : Nat) (doc : Node) : ModalResult :=
  match modalBody year doc with
  | .ok (h, op) => .ok h op
  | .error _ => .empty

/-- The number of history entries in a result (`{}` has none). -/
def ModalResult.historyLength : ModalResult → Nat
  | .ok h _ => h.length
  | .empty => 0

/-! ### Concrete documents used by witnesses and counterexamples -/

/-- A pre-match bookmaker block: identifiable via the image `alt` text, with
two complete odds fields. -/
def bet365Block : Node :=
  .elem "div" [("class", "border-black-borders flex h-9")] [
    .elem "img" [("alt", "bet365")] [],
    .elem "div" [("class", "flex-center flex-col font-bold")] [.text "2.50"],
    .elem "div" [("class", "flex-center flex-col font-bold")] [.text "3.00"]]

/-- A block in which no identification method succeeds. -/
def anonymousBlock : Node :=
  .elem "div" [("class", "border-black-borders flex h-9")] [
    .elem "div" [("class", "flex-center flex-col font-bold")] [.text "2.50"],
    .elem "div" [("class", "flex-center flex-col font-bold")] [.text "3.00"]]

def marketDoc : Node := .elem "[document]" [] [bet365Block]

def emptyDoc : Node := .elem "[document]" [] []

/-- A block identifiable as `bet365` but exposing a single odds field. -/
def oneFieldBlock : Node :=
  .elem "div" [("class", "border-black-borders")] [
    .elem "img" [("alt", "bet365")] [],
    .elem "div" [("class", "flex-center flex-col font-bold")] [.text "2.50"]]

/-- The record `parse_market_odds` produces for `bet365Block`. -/
def bet365Record : List (String × String) :=
  [("odds_over", "2.50"), ("odds_under", "3.00"), ("bookmaker_name", "bet365"),
   ("period", "FullTime")]

/-- The two structurally adjacent history regions: `tss` timestamp rows and
`vals` value rows. -/
def historyRegions (tss vals : List String) : List Node :=
  [.elem "div" [("class", "flex flex-col gap-1")]
     (tss.map (fun t => .elem "div" [("class", "flex gap-3")]
       [.elem "div" [("class", "font-normal")] [.text t]])),
   .elem "div" [("class", "flex flex-col gap-1")]
     (vals.map (fun v => .elem "div" [("class", "font-bold")] [.text v]))]

/-- A fully populated opening-odds region. -/
def openingRegion : Node :=
  .elem "div" [("class", "mt-2 gap-1")]
    [.elem "div" [("class", "flex gap-1")]
      [.elem "div" [] [.text "10 Mar, 09:00"],
       .elem "span" [("class", "font-bold")] [.text "1.95"]]]

/-- An opening-odds region with no sub-elements at all. -/
def openingRegionBare : Node := .elem "div" [("class", "mt-2 gap-1")] []

/-- Three timestamp rows, two value rows, a complete opening region. -/
def histDoc3 : Node :=
  .elem "[document]" []
    (historyRegions ["15 Mar, 14:30", "16 Mar, 10:00", "17 Mar, 11:00"] ["2.50", "3.00"] ++
      [openingRegion])

/-- Three timestamp rows, two value rows, no opening region. -/
def histDocNoOpening : Node :=
  .elem "[document]" []
    (historyRegions ["15 Mar, 14:30", "16 Mar, 10:00", "17 Mar, 11:00"] ["2.50", "3.00"])

/-- Valid rows, the opening region present but bare. -/
def histDocBareOpening : Node :=
  .elem "[document]" []
    (historyRegions ["15 Mar, 14:30", "16 Mar, 10:00"] ["2.50", "3.00"] ++
      [openingRegionBare])

/-- Row 1 has a valid timestamp but a non-numeric value text; row 2 is fully
valid. -/
def histDocBadValue : Node :=
  .elem "[document]" []
    (historyRegions ["15 Mar, 14:30", "16 Mar, 10:00"] ["abc", "3.00"] ++ [openingRegion])

/-! ### C3 -/

/-- C3: `parse_odds_history_modal` never propagates an exception: an error
raised anywhere in the body is caught by the outer handler, which returns the
bare `{}` (the closest valid default), and a body that completes returns its
well-formed result unchanged. -/
theorem C3_never_raises (year : Nat) (doc : Node) :
    (∀ e, modalBody year doc = .error e → parse_odds_history_modal year doc = .empty) ∧
    (∀ h op, modalBody year doc = .ok (h, op) →
      parse_odds_history_modal year doc = .ok h op) := by
  constructor
  · intro e he
    unfold parse_odds_history_modal
    rw [he]
  · intro h op hok
    unfold parse_odds_history_modal
    rw [hok]

/-- Witness for C3: on the empty document the body raises `AttributeError`
(`select_one` returns `None` for the opening region) and the call returns
`{}`; on `histDoc3` the body completes and the call returns its result. -/
theorem C3_never_raises_witness :
    parse_odds_history_modal 2024 emptyDoc = .empty ∧
    parse_odds_history_modal 2024 histDoc3 =
      .ok [⟨"2024-03-15T14:30:00", mkRat 5 2⟩, ⟨"2024-03-16T10:00:00", 3⟩]
        (some ⟨"2024-03-10T09:00:00", mkRat 39 20⟩) :=
  ⟨(C3_never_raises 2024 emptyDoc).1 .attributeError (by decide),
   (C3_never_raises 2024 histDoc3).2 _ _ (by decide)⟩

/-! ### C10 -/

/-- C10: `parse_market_odds` is deterministic — an invocation at one ambient
UTC clock year returns exactly what an invocation at any other year returns,
for every input; by contrast `parse_odds_history_modal` embeds the ambient
year in every timestamp it emits, as the two concrete runs show. -/
theorem C10_market_odds_clock_independent :
    (∀ y₁ y₂ doc period odds_labels target,
      invokeMarketOdds y₁ doc period odds_labels target =
        invokeMarketOdds y₂ doc period odds_labels target) ∧
    parse_odds_history_modal 2024 histDoc3 =
      .ok [⟨"2024-03-15T14:30:00", mkRat 5 2⟩, ⟨"2024-03-16T10:00:00", 3⟩]
        (some ⟨"2024-03-10T09:00:00", mkRat 39 20⟩) ∧
    parse_odds_history_modal 2025 histDoc3 =
      .ok [⟨"2025-03-15T14:30:00", mkRat 5 2⟩, ⟨"2025-03-16T10:00:00", 3⟩]
        (some ⟨"2025-03-10T09:00:00", mkRat 39 20⟩) :=
  ⟨fun _ _ _ _ _ _ => rfl, by decide, by decide⟩

/-! ### C4 -/

theorem listInfix_of_isPrefixOf {pat cs : List Char} (h : pat.isPrefixOf cs = true) :
    listInfix pat cs = true := by
  cases cs with
  | nil => rw [listInfix]; exact h
  | cons c cs => rw [listInfix, h, Bool.true_or]

/-- Every class string the retry pattern matches is matched by the primary
pattern: the retry pattern is the primary literal extended to the right and
anchored. -/
theorem fallbackPat_imp_primaryPat {cls : String} (h : fallbackBlockPat cls = true) :
    primaryBlockPat cls = true := by
  unfold fallbackBlockPat strHasPrefix at h
  unfold primaryBlockPat strContains
  apply listInfix_of_isPrefixOf
  rw [List.isPrefixOf_iff_prefix] at h ⊢
  exact List.IsPrefix.trans (by decide) h

theorem blockPred_fallback_imp_primary {n : Node}
    (h : (n.tagName == some "div" && classMatches fallbackBlockPat n) = true) :
    (n.tagName == some "div" && classMatches primaryBlockPat n) = true := by
  rw [Bool.and_eq_true] at h ⊢
  refine ⟨h.1, ?_⟩
  have h2 := h.2
  unfold classMatches at h2 ⊢
  cases hc : n.getAttr "class" with
  | none => rw [hc] at h2; exact h2
  | some cls => rw [hc] at h2; exact fallbackPat_imp_primaryPat h2

/-- C4 counterexample (the negation of the claim's existential, stated
without binders as an equality of predicates): no class string whatsoever is
matched by the retry pattern but not by the primary pattern — the retry
pattern is the primary literal extended to the right and anchored, so the
broader-retry behaviour the claim describes cannot be observed on any
document. -/
theorem C4_counterexample_retry_subsumed :
    (fun cls => fallbackBlockPat cls && !primaryBlockPat cls) = fun _ => false := by
  funext cls
  by_cases h : fallbackBlockPat cls = true
  · rw [h, fallbackPat_imp_primaryPat h]
    rfl
  · rw [Bool.eq_false_iff.mpr h]
    rfl

/-- C4 amended: block discovery does retry with a second pattern when the
primary finds nothing, but the retry pattern is strictly narrower, not
broader: whenever the primary search finds no block the retry finds none
either, so block discovery always returns exactly the primary search's
result. -/
theorem C4_amended_retry_never_adds (doc : Node) :
    discoverBlocks doc = findAllTagClass doc "div" primaryBlockPat := by
  unfold discoverBlocks
  by_cases h : (findAllTagClass doc "div" primaryBlockPat).isEmpty
  · rw [if_pos h]
    rw [List.isEmpty_iff] at h
    rw [h]
    unfold findAllTagClass at h ⊢
    rw [List.filter_eq_nil_iff] at h ⊢
    intro n hn hfb
    exact h n hn (blockPred_fallback_imp_primary hfb)
  · rw [if_neg h]

/-! ### C2 -/

/-- C2 counterexample: in `histDocBadValue`, row 1 has a valid timestamp and a
non-numeric value text while row 2 is fully valid; the claim would skip only
row 1 and keep row 2, but `float` raises outside the inner `try`, the whole
call aborts, and the result is the bare `{}`, which contains no history at
all. -/
theorem C2_counterexample :
    parse_odds_history_modal 2024 histDocBadValue = ModalResult.empty ∧
    (selectHistoryTimestamps histDocBadValue).map getTextStrip =
      ["15 Mar, 14:30", "16 Mar, 10:00"] ∧
    (selectHistoryValues histDocBadValue).map getTextStrip = ["abc", "3.00"] ∧
    strptime_d_b_HM "16 Mar, 10:00" = some ⟨3, 16, 10, 0⟩ ∧
    pyFloat? "3.00" = some 3 := by decide

/-- C2 amended: a pair whose timestamp fails to parse is skipped and the loop
continues with the remaining pairs, exactly as the claim says; but a pair
whose timestamp parses and whose value text fails to parse raises
`ValueError` out of the loop (the inner `try` covers only the timestamp
parse), and a loop error makes the whole call degrade to the bare `{}`. -/
theorem C2_amended_skip_vs_abort :
    (∀ year ts odd rest, strptime_d_b_HM (getTextStrip ts) = none →
      historyLoop year ((ts, odd) :: rest) = historyLoop year rest) ∧
    (∀ year ts odd rest dt, strptime_d_b_HM (getTextStrip ts) = some dt →
      pyFloat? (getTextStrip odd) = none →
      historyLoop year ((ts, odd) :: rest) = .error .valueError) ∧
    (∀ year doc e,
      historyLoop year ((selectHistoryTimestamps doc).zip (selectHistoryValues doc)) =
        .error e →
      parse_odds_history_modal year doc = .empty) := by
  refine ⟨?_, ?_, ?_⟩
  · intro year ts odd rest h
    simp only [historyLoop, h]
  · intro year ts odd rest dt h1 h2
    simp only [historyLoop, h1, h2]
  · intro year doc e h
    unfold parse_odds_history_modal modalBody
    simp only [h]

/-- Witness for C2 amended at concrete nodes: a bad timestamp only skips its
pair; a good timestamp with a bad value text aborts with `ValueError`; a loop
error turns the call's result into `{}`. -/
theorem C2_amended_skip_vs_abort_witness :
    historyLoop 2024
        [(Node.text "nonsense", Node.text "2.50"), (Node.text "16 Mar, 10:00", Node.text "3.00")] =
      historyLoop 2024 [(Node.text "16 Mar, 10:00", Node.text "3.00")] ∧
    historyLoop 2024 [(Node.text "15 Mar, 14:30", Node.text "abc")] = .error .valueError ∧
    parse_odds_history_modal 2024 histDocBadValue = .empty :=
  ⟨C2_amended_skip_vs_abort.1 2024 (Node.text "nonsense") (Node.text "2.50") _ (by decide),
   C2_amended_skip_vs_abort.2.1 2024 (Node.text "15 Mar, 14:30") (Node.text "abc") []
     ⟨3, 15, 14, 30⟩ (by decide) (by decide),
   C2_amended_skip_vs_abort.2.2 2024 histDocBadValue PyErr.valueError (by decide)⟩

/-! ### C1 -/

/-- C1 counterexample: `histDocNoOpening` carries fully parseable history
rows and no opening-odds region; the claim requires `opening_odds = null`
with both parsed pairs kept in `odds_history`, but `select_one` returns
`None`, `None.select_one` raises `AttributeError`, and the call returns the
bare `{}` with no history at all. -/
theorem C1_counterexample :
    parse_odds_history_modal 2024 histDocNoOpening = ModalResult.empty ∧
    historyLoop 2024
        ((selectHistoryTimestamps histDocNoOpening).zip (selectHistoryValues histDocNoOpening)) =
      .ok [⟨"2024-03-15T14:30:00", mkRat 5 2⟩, ⟨"2024-03-16T10:00:00", 3⟩] ∧
    (selectOpeningBlock histDocNoOpening).isNone = true := by decide

/-- C1 amended: when the opening-odds region is present, a missing
timestamp/value sub-element or a failed timestamp/value parse yields
`opening_odds = none` while `odds_history` keeps exactly what the history
loop produced; when the region itself is missing the call instead degrades to
the bare `{}`. -/
theorem C1_amended_opening_soft_failure (year : Nat) (doc : Node) (h : List HistoryEntry)
    (blk : Node) (hblk : selectOpeningBlock doc = some blk)
    (hh : historyLoop year ((selectHistoryTimestamps doc).zip (selectHistoryValues doc)) = .ok h)
    (hfail : selectOpeningTs blk = none ∨ selectOpeningVal blk = none ∨
      (∃ tsDiv, selectOpeningTs blk = some tsDiv ∧ strptime_d_b_HM (getTextStrip tsDiv) = none) ∨
      (∃ valDiv, selectOpeningVal blk = some valDiv ∧ pyFloat? (getTextStrip valDiv) = none)) :
    parse_odds_history_modal year doc = .ok h none := by
  have hop : openingSection year doc = .ok none := by
    unfold openingSection
    rw [hblk]
    rcases hts : selectOpeningTs blk with _ | tsDiv <;>
      rcases hval : selectOpeningVal blk with _ | valDiv <;>
        simp only [hts, hval]
    rcases hfail with h1 | h2 | ⟨tsDiv', h3, h4⟩ | ⟨valDiv', h5, h6⟩
    · rw [hts] at h1; cases h1
    · rw [hval] at h2; cases h2
    · rw [hts] at h3
      obtain rfl := Option.some.inj h3
      simp only [h4]
    · rw [hval] at h5
      obtain rfl := Option.some.inj h5
      rcases hdt : strptime_d_b_HM (getTextStrip tsDiv) with _ | dt <;>
        simp only [hdt, h6]
  unfold parse_odds_history_modal modalBody
  simp only [hh, hop]

/-- Witness for C1 amended at `histDocBareOpening`: the region is present but
has no sub-elements, so the history survives and `opening_odds` is `none`. -/
theorem C1_amended_opening_soft_failure_witness :
    parse_odds_history_modal 2024 histDocBareOpening =
      .ok [⟨"2024-03-15T14:30:00", mkRat 5 2⟩, ⟨"2024-03-16T10:00:00", 3⟩] none :=
  C1_amended_opening_soft_failure 2024 histDocBareOpening _ openingRegionBare
    rfl (by decide) (Or.inl rfl)

/-! ### C9 -/

theorem historyLoop_ok_length {year : Nat} :
    ∀ {ps : List (Node × Node)} {es : List HistoryEntry},
      historyLoop year ps = .ok es → es.length ≤ ps.length := by
  intro ps
  induction ps with
  | nil =>
    intro es h
    simp only [historyLoop, Except.ok.injEq] at h
    subst h
    simp
  | cons p rest ih =>
    intro es h
    obtain ⟨ts, odd⟩ := p
    simp only [historyLoop] at h
    rcases hdt : strptime_d_b_HM (getTextStrip ts) with _ | dt <;> rw [hdt] at h
    · have := ih h
      simp only [List.length_cons]
      omega
    · rcases hv : pyFloat? (getTextStrip odd) with _ | v <;> rw [hv] at h
      · cases h
      · rcases hrec : historyLoop year rest with e | es' <;> rw [hrec] at h
        · cases h
        · obtain rfl := Except.ok.inj h
          have := ih hrec
          simp only [List.length_cons]
          omega

theorem historyLoop_all_parse {year : Nat} :
    ∀ {ps : List (Node × Node)},
      ps.all (fun p => (strptime_d_b_HM (getTextStrip p.1)).isSome &&
        (pyFloat? (getTextStrip p.2)).isSome) = true →
      ∃ es, historyLoop year ps = .ok es ∧ es.length = ps.length := by
  intro ps
  induction ps with
  | nil => intro _; exact ⟨[], rfl, rfl⟩
  | cons p rest ih =>
    intro hall
    obtain ⟨ts, odd⟩ := p
    rw [List.all_cons, Bool.and_eq_true] at hall
    obtain ⟨hp, hrest⟩ := hall
    rw [Bool.and_eq_true] at hp
    obtain ⟨h1, h2⟩ := hp
    rw [Option.isSome_iff_exists] at h1 h2
    obtain ⟨dt, hdt⟩ := h1
    obtain ⟨v, hv⟩ := h2
    obtain ⟨es, hes, hlen⟩ := ih hrest
    refine ⟨⟨isoformatWithYear year dt, v⟩ :: es, ?_, by simp [hlen]⟩
    simp only [historyLoop, hdt, hv, hes]

theorem openingSection_ok_of_region (year : Nat) (blk : Node) {doc : Node}
    (hblk : selectOpeningBlock doc = some blk) :
    ∃ op, openingSection year doc = .ok op := by
  unfold openingSection
  rw [hblk]
  rcases hts : selectOpeningTs blk with _ | tsDiv <;>
    rcases hval : selectOpeningVal blk with _ | valDiv <;>
      simp only [hts, hval]
  · exact ⟨none, rfl⟩
  · exact ⟨none, rfl⟩
  · exact ⟨none, rfl⟩
  · rcases hdt : strptime_d_b_HM (getTextStrip tsDiv) with _ | dt <;> simp only [hdt]
    · exact ⟨none, rfl⟩
    · rcases hv : pyFloat? (getTextStrip valDiv) with _ | v <;> simp only [hv]
      · exact ⟨none, rfl⟩
      · exact ⟨some ⟨isoformatWithYear year dt, v⟩, rfl⟩

theorem modalBody_ok_historyLoop {year : Nat} {doc : Node} {h : List HistoryEntry}
    {op : Option HistoryEntry} (hb : modalBody year doc = .ok (h, op)) :
    historyLoop year ((selectHistoryTimestamps doc).zip (selectHistoryValues doc)) = .ok h ∧
    openingSection year doc = .ok op := by
  unfold modalBody at hb
  rcases hl : historyLoop year ((selectHistoryTimestamps doc).zip (selectHistoryValues doc))
      with e' | h' <;> rw [hl] at hb
  · cases hb
  · rcases ho : openingSection year doc with e' | op' <;> rw [ho] at hb
    · cases hb
    · simp only [Except.ok.injEq, Prod.mk.injEq] at hb
      obtain ⟨h1, h2⟩ := hb
      subst h1
      subst h2
      exact ⟨rfl, rfl⟩

/-- C9 counterexample: `histDocNoOpening` has three timestamp elements and
two value elements, every zipped pair parses, and yet the call produces zero
history entries rather than two: the missing opening region aborts the whole
parse to `{}` after the loop has run. -/
theorem C9_counterexample :
    (selectHistoryTimestamps histDocNoOpening).length = 3 ∧
    (selectHistoryValues histDocNoOpening).length = 2 ∧
    ((selectHistoryTimestamps histDocNoOpening).zip (selectHistoryValues histDocNoOpening)).all
      (fun p => (strptime_d_b_HM (getTextStrip p.1)).isSome &&
        (pyFloat? (getTextStrip p.2)).isSome) = true ∧
    (parse_odds_history_modal 2024 histDocNoOpening).historyLength = 0 := by decide

/-- C9 amended: the loop processes exactly the positional pairing truncated to
the shorter list, so a result never holds more than `min` entries, and it
holds exactly `min` entries when every paired timestamp/value parses and the
parse completes (the opening-odds region is present); when the parse instead
degrades to `{}`, zero entries are returned. -/
theorem C9_pairing_truncates :
    (∀ year doc, (parse_odds_history_modal year doc).historyLength ≤
      min (selectHistoryTimestamps doc).length (selectHistoryValues doc).length) ∧
    (∀ year doc, (selectOpeningBlock doc).isSome = true →
      ((selectHistoryTimestamps doc).zip (selectHistoryValues doc)).all
        (fun p => (strptime_d_b_HM (getTextStrip p.1)).isSome &&
          (pyFloat? (getTextStrip p.2)).isSome) = true →
      (parse_odds_history_modal year doc).historyLength =
        min (selectHistoryTimestamps doc).length (selectHistoryValues doc).length) := by
  constructor
  · intro year doc
    rcases hb : modalBody year doc with e | ⟨h, op⟩
    · unfold parse_odds_history_modal
      rw [hb]
      simp [ModalResult.historyLength]
    · obtain ⟨hl, -⟩ := modalBody_ok_historyLoop hb
      unfold parse_odds_history_modal
      rw [hb]
      have hle := historyLoop_ok_length hl
      rw [List.length_zip] at hle
      simpa [ModalResult.historyLength] using hle
  · intro year doc hreg hall
    rw [Option.isSome_iff_exists] at hreg
    obtain ⟨blk, hblk⟩ := hreg
    obtain ⟨es, hes, hlen⟩ := historyLoop_all_parse hall
    obtain ⟨op, hop⟩ := openingSection_ok_of_region year blk hblk
    have hb : modalBody year doc = .ok (es, op) := by
      unfold modalBody
      rw [hes, hop]
    unfold parse_odds_history_modal
    rw [hb]
    simp only [ModalResult.historyLength]
    rw [hlen, List.length_zip]

/-- Witness for C9 amended at `histDoc3` — three timestamps, two values, all
parseable, opening region present: exactly `min 3 2` entries are produced. -/
theorem C9_pairing_truncates_witness :
    (parse_odds_history_modal 2024 histDoc3).historyLength =
      min (selectHistoryTimestamps histDoc3).length (selectHistoryValues histDoc3).length :=
  C9_pairing_truncates.2 2024 histDoc3 (by decide) (by decide)

/-! ### Python dict lemmas, and C7 / C6 -/

theorem dictGet_dictInsert_self (k v : String) :
    ∀ d : List (String × String), dictGet (dictInsert d k v) k = some v := by
  intro d
  induction d with
  | nil => simp [dictInsert, dictGet]
  | cons p rest ih =>
    by_cases hp : (p.1 == k) = true
    · simp [dictInsert, dictGet, hp]
    · simp [dictInsert, dictGet, hp, ih]

theorem dictGet_dictInsert_other {k k' : String} (v : String) (hne : (k' == k) = false) :
    ∀ d : List (String × String), dictGet (dictInsert d k v) k' = dictGet d k' := by
  intro d
  have hkk : (k == k') = false := by
    rw [beq_eq_false_iff_ne] at hne ⊢
    exact fun h => hne h.symm
  induction d with
  | nil => simp [dictInsert, dictGet, hkk]
  | cons p rest ih =>
    by_cases hp : (p.1 == k) = true
    · have hpk : (p.1 == k') = false := by
        rw [beq_eq_false_iff_ne] at hkk ⊢
        rw [eq_of_beq hp]
        exact hkk
      simp [dictInsert, dictGet, hp, hkk, hpk]
    · simp [dictInsert, dictGet, hp, ih]

theorem dictGet_isSome_dictInsert {d : List (String × String)} {k' : String} (k v : String)
    (h : (dictGet d k').isSome = true) :
    (dictGet (dictInsert d k v) k').isSome = true := by
  by_cases hk : (k' == k) = true
  · obtain rfl := eq_of_beq hk
    rw [dictGet_dictInsert_self]
    rfl
  · rw [dictGet_dictInsert_other v (by rw [Bool.eq_false_iff]; exact hk) d]
    exact h

theorem dictGet_map_normalize (f : String → String) (k : String) :
    ∀ d : List (String × String),
      dictGet (d.map (fun kv => (kv.1, f kv.2))) k = (dictGet d k).map f := by
  intro d
  induction d with
  | nil => rfl
  | cons p rest ih =>
    by_cases hp : (p.1 == k) = true <;> simp [dictGet, hp, ih]

theorem dictGet_isSome_foldl_insert (g : Nat → String) :
    ∀ (il : List (Nat × String)) (d : List (String × String)) (l : String),
      l ∈ il.map Prod.snd ∨ (dictGet d l).isSome = true →
      (dictGet (il.foldl (fun d' p => dictInsert d' p.2 (g p.1)) d) l).isSome = true := by
  intro il
  induction il with
  | nil =>
    intro d l h
    rcases h with h | h
    · cases h
    · exact h
  | cons p rest ih =>
    intro d l h
    simp only [List.foldl_cons]
    apply ih
    rcases h with h | h
    · rw [List.map_cons, List.mem_cons] at h
      rcases h with h | h
      · right
        subst h
        rw [dictGet_dictInsert_self]
        rfl
      · left
        exact h
    · right
      by_cases hk : (l == p.2) = true
      · obtain rfl := eq_of_beq hk
        rw [dictGet_dictInsert_self]
        rfl
      · rw [dictGet_dictInsert_other _ (by rw [Bool.eq_false_iff]; exact hk) d]
        exact h

theorem processBlock_eq_some {period : String} {odds_labels : List String}
    {target : Option String} {block : Node} {rec : List (String × String)}
    (h : processBlock period odds_labels target block = some rec) :
    rec = dictInsert (dictInsert
      ((odds_labels.enum.foldl (fun d il => dictInsert d il.2
          (getTextStrip ((discoverOddsBlocks odds_labels block).getD il.1 (Node.text "")))) []).map
        (fun kv => (kv.1, normalizeOddsValue kv.2)))
      "bookmaker_name" (_extract_bookmaker_name block)) "period" period ∧
    (_extract_bookmaker_name block == "" || _extract_bookmaker_name block == "Unknown") = false ∧
    ¬((discoverOddsBlocks odds_labels block).length < odds_labels.length) := by
  simp only [processBlock] at h
  by_cases h1 : (_extract_bookmaker_name block == "" ||
      _extract_bookmaker_name block == "Unknown") = true
  · rw [if_pos h1] at h; cases h
  · rw [if_neg h1] at h
    by_cases h2 : targetSkip target (_extract_bookmaker_name block) = true
    · rw [if_pos h2] at h; cases h
    · rw [if_neg h2] at h
      by_cases h3 : (discoverOddsBlocks odds_labels block).length < odds_labels.length
      · rw [if_pos h3] at h; cases h
      · rw [if_neg h3] at h
        exact ⟨(Option.some.inj h).symm, Bool.eq_false_iff.mpr h1, h3⟩

/-- C7: every record `parse_market_odds` returns carries a `bookmaker_name`
that is non-empty and different from the `"Unknown"` sentinel, and a block
whose resolved name is empty or `"Unknown"` contributes no record at all. -/
theorem C7_bookmaker_name_known :
    (∀ doc period odds_labels target rec,
      rec ∈ parse_market_odds doc period odds_labels target →
      ∃ n, dictGet rec "bookmaker_name" = some n ∧ n ≠ "" ∧ n ≠ "Unknown") ∧
    (∀ period odds_labels target block,
      _extract_bookmaker_name block = "" ∨ _extract_bookmaker_name block = "Unknown" →
      processBlock period odds_labels target block = none) := by
  constructor
  · intro doc period odds_labels target rec hrec
    unfold parse_market_odds at hrec
    rw [List.mem_filterMap] at hrec
    obtain ⟨block, -, hpb⟩ := hrec
    obtain ⟨hrec, hname, -⟩ := processBlock_eq_some hpb
    subst hrec
    rw [Bool.or_eq_false_iff, beq_eq_false_iff_ne, beq_eq_false_iff_ne] at hname
    refine ⟨_extract_bookmaker_name block, ?_, hname.1, hname.2⟩
    rw [dictGet_dictInsert_other _ (by decide) _, dictGet_dictInsert_self]
  · intro period odds_labels target block h
    simp only [processBlock]
    rw [if_pos (by rcases h with h | h <;> rw [h] <;> rfl)]

/-- Witness for C7: the record emitted for `marketDoc` resolves the name
`"bet365"`, and `anonymousBlock` (whose resolved name is `"Unknown"`) yields
no record. -/
theorem C7_bookmaker_name_known_witness :
    (∃ n, dictGet bet365Record "bookmaker_name" = some n ∧ n ≠ "" ∧ n ≠ "Unknown") ∧
    processBlock "FullTime" ["odds_over", "odds_under"] none anonymousBlock = none :=
  ⟨C7_bookmaker_name_known.1 marketDoc "FullTime" ["odds_over", "odds_under"] none
      bet365Record (by decide),
   C7_bookmaker_name_known.2 "FullTime" ["odds_over", "odds_under"] none anonymousBlock
      (Or.inr (by decide))⟩

/-- C6: a block whose discovered odds-field count (after both the primary and
the fallback search) is below the number of requested labels contributes no
record at all, and every record the extractor does emit binds every requested
label. -/
theorem C6_no_partial_records :
    (∀ period odds_labels target block,
      (discoverOddsBlocks odds_labels block).length < odds_labels.length →
      processBlock period odds_labels target block = none) ∧
    (∀ doc period odds_labels target rec,
      rec ∈ parse_market_odds doc period odds_labels target →
      ∀ l, l ∈ odds_labels → (dictGet rec l).isSome = true) := by
  constructor
  · intro period odds_labels target block h
    simp only [processBlock]
    by_cases h1 : (_extract_bookmaker_name block == "" ||
        _extract_bookmaker_name block == "Unknown") = true
    · rw [if_pos h1]
    · rw [if_neg h1]
      by_cases h2 : targetSkip target (_extract_bookmaker_name block) = true
      · rw [if_pos h2]
      · rw [if_neg h2, if_pos h]
  · intro doc period odds_labels target rec hrec l hl
    unfold parse_market_odds at hrec
    rw [List.mem_filterMap] at hrec
    obtain ⟨block, -, hpb⟩ := hrec
    obtain ⟨hrec, -, -⟩ := processBlock_eq_some hpb
    subst hrec
    apply dictGet_isSome_dictInsert
    apply dictGet_isSome_dictInsert
    rw [dictGet_map_normalize, Option.isSome_map']
    refine dictGet_isSome_foldl_insert
      (fun i => getTextStrip ((discoverOddsBlocks odds_labels block).getD i (Node.text "")))
      odds_labels.enum [] l (Or.inl ?_)
    have hsnd : (odds_labels.enum).map Prod.snd = odds_labels :=
      List.enumFrom_map_snd 0 odds_labels
    rw [hsnd]
    exact hl

/-- Witness for C6: a `bet365` block exposing a single field with two labels
requested yields no record, and the emitted `marketDoc` record binds both
requested labels. -/
theorem C6_no_partial_records_witness :
    processBlock "FullTime" ["odds_over", "odds_under"] none oneFieldBlock = none ∧
    (dictGet bet365Record "odds_over").isSome = true ∧
    (dictGet bet365Record "odds_under").isSome = true :=
  ⟨C6_no_partial_records.1 "FullTime" ["odds_over", "odds_under"] none oneFieldBlock (by decide),
   C6_no_partial_records.2 marketDoc "FullTime" ["odds_over", "odds_under"] none bet365Record
     (by decide) "odds_over" (by decide),
   C6_no_partial_records.2 marketDoc "FullTime" ["odds_over", "odds_under"] none bet365Record
     (by decide) "odds_under" (by decide)⟩

/-! ### C8 -/

theorem processBlock_filter_skip {period : String} {odds_labels : List String} {block : Node}
    {target : Option String}
    (h : targetSkip target (_extract_bookmaker_name block) = true) :
    processBlock period odds_labels target block = none := by
  simp only [processBlock]
  by_cases h1 : (_extract_bookmaker_name block == "" ||
      _extract_bookmaker_name block == "Unknown") = true
  · rw [if_pos h1]
  · rw [if_neg h1, if_pos h]

theorem processBlock_filter_pass {period : String} {odds_labels : List String} {block : Node}
    {target : Option String}
    (h : targetSkip target (_extract_bookmaker_name block) = false) :
    processBlock period odds_labels target block = processBlock period odds_labels none block := by
  simp only [processBlock]
  by_cases h1 : (_extract_bookmaker_name block == "" ||
      _extract_bookmaker_name block == "Unknown") = true
  · rw [if_pos h1, if_pos h1]
  · rw [if_neg h1, if_neg h1, h,
      show targetSkip none (_extract_bookmaker_name block) = false from rfl]

/-- C8 counterexample: with `target_bookmaker` supplied as the empty string,
the `"bet365"` block is still emitted although `"bet365"` does not equal `""`
case-insensitively — Python's truthiness test (`if target_bookmaker and ...`)
disables the filter entirely for an empty target, against the claim's
if-and-only-if. -/
theorem C8_counterexample :
    parse_market_odds marketDoc "FullTime" ["odds_over", "odds_under"] (some "") =
      [bet365Record] ∧
    (pyLower "bet365" == pyLower "") = false := by decide

/-- C8 amended: for a supplied non-empty target, a block is emitted exactly
when its resolved name equals the target case-insensitively and the block
otherwise qualifies; a supplied empty-string target is falsy in Python and
filters nothing. -/
theorem C8_amended_filter (period : String) (odds_labels : List String) (block : Node)
    (t : String) (ht : t ≠ "") :
    ((processBlock period odds_labels (some t) block).isSome = true ↔
      (pyLower (_extract_bookmaker_name block) = pyLower t ∧
        (processBlock period odds_labels none block).isSome = true)) ∧
    processBlock period odds_labels (some "") block =
      processBlock period odds_labels none block := by
  constructor
  · by_cases heq : pyLower (_extract_bookmaker_name block) = pyLower t
    · have hskip : targetSkip (some t) (_extract_bookmaker_name block) = false := by
        simp [targetSkip, heq]
      rw [processBlock_filter_pass hskip]
      simp [heq]
    · have hskip : targetSkip (some t) (_extract_bookmaker_name block) = true := by
        simp [targetSkip, ht, heq]
      rw [processBlock_filter_skip hskip]
      simp [heq]
  · exact processBlock_filter_pass (by simp [targetSkip])

/-- Witness for C8 amended at `bet365Block` with the target `"Bet365"` (and
the empty-target clause at the same block). -/
theorem C8_amended_filter_witness :
    ((processBlock "FullTime" ["odds_over", "odds_under"] (some "Bet365") bet365Block).isSome =
        true ↔
      (pyLower (_extract_bookmaker_name bet365Block) = pyLower "Bet365" ∧
        (processBlock "FullTime" ["odds_over", "odds_under"] none bet365Block).isSome = true)) ∧
    processBlock "FullTime" ["odds_over", "odds_under"] (some "") bet365Block =
      processBlock "FullTime" ["odds_over", "odds_under"] none bet365Block :=
  C8_amended_filter "FullTime" ["odds_over", "odds_under"] bet365Block "Bet365" (by decide)

/-! ### C5 -/

theorem takeWhile_append_not {p : Char → Bool} :
    ∀ (xs : List Char) (y : Char) (ys : List Char), (∀ x ∈ xs, p x = true) → p y = false →
      (xs ++ y :: ys).takeWhile p = xs ∧ (xs ++ y :: ys).dropWhile p = y :: ys := by
  intro xs
  induction xs with
  | nil =>
    intro y ys _ hy
    simp [List.takeWhile_cons, List.dropWhile_cons, hy]
  | cons x xs ih =>
    intro y ys hall hy
    have hx : p x = true := hall x (by simp)
    obtain ⟨h1, h2⟩ := ih y ys (fun a ha => hall a (by simp [ha])) hy
    constructor
    · rw [List.cons_append, List.takeWhile_cons, hx]
      simp [h1]
    · rw [List.cons_append, List.dropWhile_cons, hx]
      simpa using h2

theorem tryBackref_self (A B : List Char) (hA : A ≠ []) (hB : B ≠ []) :
    ∀ j, tryBackref A (B ++ A) ('.' :: B) (B.length + j) = some (A ++ '.' :: B, []) := by
  intro j
  induction j with
  | zero =>
    obtain ⟨m, hm⟩ : ∃ m, B.length = m + 1 := by
      rcases B with _ | ⟨b, B'⟩
      · exact absurd rfl hB
      · exact ⟨B'.length, rfl⟩
    rw [Nat.add_zero, hm]
    simp only [tryBackref]
    rw [← hm, List.take_left, List.drop_left]
    have hpref : ((A ++ '.' :: B).isPrefixOf (A ++ '.' :: B)) = true := by simp
    rw [if_pos hpref, List.drop_length]
  | succ j ih =>
    have hstep : B.length + (j + 1) = (B.length + j) + 1 := rfl
    rw [hstep]
    simp only [tryBackref]
    have hA1 : 0 < A.length := List.length_pos.mpr hA
    rw [if_neg ?hcond]
    case hcond =>
      intro hx
      rw [List.isPrefixOf_iff_prefix] at hx
      have hle := hx.length_le
      simp only [List.length_append, List.length_cons, List.length_take,
        List.length_drop] at hle
      omega
    exact ih

theorem matchHere_self_repeat (A B : List Char) (hA : A ≠ []) (hB : B ≠ [])
    (hallA : ∀ x ∈ A, Char.isDigit x = true) (hallB : ∀ x ∈ B, Char.isDigit x = true) :
    matchHere ((A ++ '.' :: B) ++ (A ++ '.' :: B)) = some (A ++ '.' :: B, []) := by
  have hs : (A ++ '.' :: B) ++ (A ++ '.' :: B) = A ++ '.' :: (B ++ (A ++ '.' :: B)) := by
    simp [List.append_assoc]
  rw [hs]
  obtain ⟨ht1, hd1⟩ :=
    takeWhile_append_not A '.' (B ++ (A ++ '.' :: B)) hallA (by decide)
  have hq : B ++ (A ++ '.' :: B) = (B ++ A) ++ '.' :: B := by
    rw [List.append_assoc]
  have hallBA : ∀ x ∈ B ++ A, Char.isDigit x = true := by
    intro x hx
    rcases List.mem_append.mp hx with hx | hx
    · exact hallB x hx
    · exact hallA x hx
  obtain ⟨ht2, hd2⟩ :=
    takeWhile_append_not (B ++ A) '.' B hallBA (by decide)
  rcases A with _ | ⟨a, A'⟩
  · exact absurd rfl hA
  · rw [matchHere.eq_def]
    rw [ht1, hd1]
    simp only
    rw [hq, ht2, hd2]
    rw [List.length_append]
    exact tryBackref_self (a :: A') B hA hB (a :: A').length

theorem reSubDD_single_full_match {cs g : List Char} (hcs : cs ≠ [])
    (hm : matchHere cs = some (g, [])) : reSubDD cs = g := by
  rcases cs with _ | ⟨c, cs'⟩
  · exact absurd rfl hcs
  · show reSubAux (cs'.length + 1) (c :: cs') = g
    simp only [reSubAux, hm]
    simp [reSubAux]

theorem reSubAux_no_match : ∀ (fuel : Nat) (cs : List Char), hasSelfRepeat cs = false →
    reSubAux fuel cs = cs := by
  intro fuel
  induction fuel with
  | zero =>
    intro cs _
    rcases cs with _ | ⟨c, cs'⟩ <;> rfl
  | succ fuel ih =>
    intro cs h
    rcases cs with _ | ⟨c, cs'⟩
    · rfl
    · simp only [hasSelfRepeat, Bool.or_eq_false_iff] at h
      obtain ⟨h1, h2⟩ := h
      have hmn : matchHere (c :: cs') = none := by
        rcases hm : matchHere (c :: cs') with _ | p
        · rfl
        · rw [hm] at h1; cases h1
      simp only [reSubAux, hmn]
      rw [ih cs' h2]

/-- C5: the normalization `re.sub(r"(\d+\.\d+)\1", r"\1", ·)` collapses a
value that is a decimal number immediately followed by an identical copy of
itself to a single copy of that number, and leaves every value in which the
doubled-decimal pattern does not occur anywhere unchanged. -/
theorem C5_normalization :
    (∀ A B : List Char, A ≠ [] → B ≠ [] →
      (∀ x ∈ A, Char.isDigit x = true) → (∀ x ∈ B, Char.isDigit x = true) →
      normalizeOddsValue (String.mk ((A ++ '.' :: B) ++ (A ++ '.' :: B))) =
        String.mk (A ++ '.' :: B)) ∧
    (∀ s : String, hasSelfRepeat s.data = false → normalizeOddsValue s = s) := by
  constructor
  · intro A B hA hB hallA hallB
    refine congrArg String.mk ?_
    refine reSubDD_single_full_match ?_ (matchHere_self_repeat A B hA hB hallA hallB)
    rcases A with _ | ⟨a, A'⟩
    · exact absurd rfl hA
    · simp
  · intro s h
    have : normalizeOddsValue s = String.mk (reSubAux s.data.length s.data) := rfl
    rw [this, reSubAux_no_match s.data.length s.data h]

/-- Witness for C5 at the spec's own examples: `"2.502.50"` collapses to
`"2.50"`, while `"2.50"` and `"2.5"` pass through unchanged. -/
theorem C5_normalization_witness :
    normalizeOddsValue "2.502.50" = "2.50" ∧
    normalizeOddsValue "2.50" = "2.50" ∧
    normalizeOddsValue "2.5" = "2.5" :=
  ⟨C5_normalization.1 ['2'] ['5', '0'] (by decide) (by decide) (by decide) (by decide),
   C5_normalization.2 "2.50" (by decide),
   C5_normalization.2 "2.5" (by decide)⟩
